import Mathlib

/-!
Verification of the scraper in `scraper/scrape.py`.

Shallow embedding choices:
* Python dictionaries are modelled as association lists (`dictGet`,
  `dictInsert`) with insertion order preserved and overwrite-in-place
  semantics.
* Python floats produced by `float(...)` on decimal strings are modelled
  as `Rat`; `parseDecimal` models `float` on plain decimal literals.
* Exceptions are modelled with `Option`: `none` means the Python code
  raises.
* Wall-clock time for the rate limiter is modelled as an exact logical
  clock (`Nat`): `time.sleep(d)` advances the clock by exactly `d`, the
  wrapped call itself takes zero time, and the caller issues the next
  request immediately when the previous one returns.
-/

/-- Python `dict` lookup `d[k]` (returning `none` for a `KeyError`). -/
def dictGet {α β : Type} [DecidableEq α] (k : α) : List (α × β) → Option β
  | [] => none
  | (k', v) :: rest => if k = k' then some v else dictGet k rest

/-- Python `dict` assignment `d[k] = v` (overwrite in place, else append). -/
def dictInsert {α β : Type} [DecidableEq α] (k : α) (v : β) : List (α × β) → List (α × β)
  | [] => [(k, v)]
  | (k', v') :: rest => if k = k' then (k, v) :: rest else (k', v') :: dictInsert k v rest

/-- Does the pattern `p` occur at the start of `s`? (Python
`str.startswith` on character lists.) -/
def startsWithList : List Char → List Char → Bool
  | _, [] => true
  | [], _ :: _ => false
  | c :: cs, p :: ps => c = p && startsWithList cs ps

/-- Python `s.startswith(p)`. -/
def pyStartsWith (s p : String) : Bool :=
  startsWithList s.data p.data

/-- Python `s.endswith(p)`. -/
def pyEndsWith (s p : String) : Bool :=
  startsWithList s.data.reverse p.data.reverse

/-- Python `s.strip()`: drop leading and trailing whitespace. -/
def pyStrip (s : String) : String :=
  ⟨((s.data.dropWhile Char.isWhitespace).reverse.dropWhile Char.isWhitespace).reverse⟩

/-- Left-to-right scan of Python `s.split(sep)` for a non-empty `sep`;
`fuel` bounds the scan (callers pass the string length, which always
suffices). -/
def pySplitAux (sep : List Char) : Nat → List Char → List Char → List (List Char)
  | _, [], acc => [acc.reverse]
  | 0, cs, acc => [acc.reverse ++ cs]
  | fuel + 1, c :: cs, acc =>
    if startsWithList (c :: cs) sep then
      acc.reverse :: pySplitAux sep fuel ((c :: cs).drop sep.length) []
    else
      pySplitAux sep fuel cs (c :: acc)

/-- Python `s.split(sep)` for a non-empty separator `sep`. -/
def pySplit (s sep : String) : List String :=
  (pySplitAux sep.data (s.data.length + 1) s.data []).map (fun l => ⟨l⟩)

/-- Left-to-right scan of Python `s.replace(sep, repl)` for a non-empty
`sep`, with the same fuel convention as `pySplitAux`. -/
def pyReplaceAux (sep repl : List Char) : Nat → List Char → List Char
  | _, [] => []
  | 0, cs => cs
  | fuel + 1, c :: cs =>
    if startsWithList (c :: cs) sep then
      repl ++ pyReplaceAux sep repl fuel ((c :: cs).drop sep.length)
    else
      c :: pyReplaceAux sep repl fuel cs

/-- Python `s.replace(sep, repl)` for a non-empty `sep`. -/
def pyReplace (s sep repl : String) : String :=
  ⟨pyReplaceAux sep.data repl.data (s.data.length + 1) s.data⟩

/-- Accumulate the value of a digit string; `none` if a non-digit occurs. -/
def digitsAux (acc : Nat) : List Char → Option Nat
  | [] => some acc
  | c :: cs => if c.isDigit then digitsAux (acc * 10 + (c.toNat - '0'.toNat)) cs else none

/-- Model of Python `float(s)` on plain decimal literals (digits with at
most one dot); other accepted forms of `float` (signs, exponents, ...)
do not occur in this program's inputs. -/
def parseDecimal (s : String) : Option Rat :=
  match pySplit s "." with
  | [i] =>
    if i = "" then none
    else (digitsAux 0 i.data).map (fun n => mkRat n 1)
  | [i, f] =>
    if i = "" ∧ f = "" then none
    else
      match digitsAux 0 i.data, digitsAux 0 f.data with
      | some a, some b => some (mkRat (a * 10 ^ f.length + b) (10 ^ f.length))
      | _, _ => none
  | _ => none

/-- `parse_german_float` (scrape.py:121): strip the thousands dots, turn
the decimal comma into a dot, then `float(...)`. -/
def parse_german_float (s : String) : Option Rat :=
  parseDecimal (pyReplace (pyReplace s "." "") "," ".")

/-- Python `s.rsplit(' ', 1)` unpacked into exactly two pieces: split at
the last space; `none` when the string has no space (`ValueError`). -/
def rsplit1 (s : String) : Option (String × String) :=
  let r := s.data.reverse
  if r.any (fun c => c = ' ') then
    some (⟨((r.dropWhile (fun c => c ≠ ' ')).drop 1).reverse⟩,
          ⟨(r.takeWhile (fun c => c ≠ ' ')).reverse⟩)
  else none

/-- The `([Ss])(trasse)\Z` alternative of the regex in `parse_address`
(scrape.py:142), acting on the reversed character list: if the word ends
in `[Ss]` + "trasse", replace that suffix by `[Ss]` + "traße". -/
def trasseSub (l : List Char) : Option (List Char) :=
  if startsWithList l ['e', 's', 's', 'a', 'r', 't'] then
    match l.drop 6 with
    | c :: rest =>
      if c = 'S' ∨ c = 's' then some ('e' :: 'ß' :: 'a' :: 'r' :: 't' :: c :: rest) else none
    | [] => none
  else none

/-- The `([Ss])(tr.)\Z` alternative of the regex in `parse_address`
(scrape.py:142): the unescaped `.` is a wildcard matching any single
character EXCEPT a newline (Python `re`'s `.` does not match `'\n'`
without `re.DOTALL`), so a word ending in `[Ss]` + "tr" + any
non-newline character gets the suffix replaced by `[Ss]` + "traße".
The argument is the reversed character list, so the wildcard position
is the head. -/
def trDotSub (l : List Char) : Option (List Char) :=
  match l with
  | x :: l1 =>
    if x ≠ '\n' then
      if startsWithList l1 ['r', 't'] then
        match l1.drop 2 with
        | c :: rest =>
          if c = 'S' ∨ c = 's' then some ('e' :: 'ß' :: 'a' :: 'r' :: 't' :: c :: rest) else none
        | [] => none
      else none
    else none
  | [] => none

/-- `re.sub(r'([Ss])(trasse|tr.)\Z', r'\1traße', street)` from
`parse_address` (scrape.py:142).  The regex is anchored at the end and
has fixed-length alternatives, so the leftmost match is the 7-character
alignment (`[Ss]trasse`) when it exists, else the 4-character alignment
(`[Ss]tr` + any non-newline character). -/
def normalize_street (s : String) : String :=
  match trasseSub s.data.reverse with
  | some r => ⟨r.reverse⟩
  | none =>
    match trDotSub s.data.reverse with
    | some r => ⟨r.reverse⟩
    | none => s

/-- The branch structure of `parse_address` (scrape.py:131) after the
fields have been computed: two fields give `(None, None, fields[0])`;
any other count goes through `rsplit` and the street regex and reads
`fields[1]`, so fewer than two fields raise (`ValueError` from the
unpack, or `IndexError` from `fields[1]`). -/
def parseFields : List String → Option (Option String × Option String × String)
  | [_] => none
  | [f0, _] => some (none, none, f0)
  | f0 :: f1 :: _ :: _ =>
    match rsplit1 f0 with
    | none => none
    | some (st, num) => some (some (normalize_street st), some num, f1)
  | [] => none

/-- `parse_address` (scrape.py:131): split on `", "`, strip each field,
then dispatch on the number of fields.  Returns `(street, number,
suburb)`; `none` models an uncaught exception. -/
def parse_address (address : String) : Option (Option String × Option String × String) :=
  parseFields ((pySplit address ", ").map pyStrip)

/-- One result-list entry (`article.result-list-entry`) as seen by
`extract_listings` (scrape.py:147): the `href` attributes of its `a`
tags, the text of the address span (`none` when the span is missing or
its first text node is empty/falsy), and the stripped-relevant `dd`
strings of its primary-criterion `dl` blocks. -/
structure Entry where
  links : List String
  addressText : Option String
  criteria : List String
deriving DecidableEq

/-- One value of the `listings` dict built by `extract_listings`. -/
structure Listing where
  street : Option String
  number : Option String
  suburb : String
  rent : Rat
  area : Rat
deriving DecidableEq

/-- Python `content.split()[0]`: first whitespace-separated token. -/
def pyFirstWord (s : String) : Option String :=
  match (pySplit s " ").filter (fun w => w ≠ "") with
  | [] => none
  | w :: _ => some w

/-- The ID scan of `extract_listings` (scrape.py:156): the first link
whose href starts with `/expose/` yields `href.split('/')[-1]`; if no
link matches, the entry is skipped (`continue`). -/
def findId (links : List String) : Option String :=
  (links.find? (fun h => pyStartsWith h "/expose/")).map
    (fun h => (pySplit h "/").getLastD "")

/-- The body of the `for dl in ...primary-criterion` loop
(scrape.py:176): a value ending in `" €"` re-binds `rent`, one ending in
`" m²"` re-binds `area`, anything else leaves both variables as they
were.  `none` models an uncaught exception from `split()[0]` or
`float(...)`. -/
def processCriterion (ra : Option Rat × Option Rat) (c : String) :
    Option (Option Rat × Option Rat) :=
  let content := pyStrip c
  if pyEndsWith content " €" then
    match pyFirstWord content with
    | none => none
    | some w =>
      match parse_german_float w with
      | none => none
      | some r => some (some r, ra.2)
  else if pyEndsWith content " m²" then
    match pyFirstWord content with
    | none => none
    | some w =>
      match parse_german_float w with
      | none => none
      | some a => some (ra.1, some a)
  else some ra

/-- The loop state of `extract_listings`: the listings dict, the
no-address counter, and the current values of the Python local variables
`rent` and `area` (`none` = not yet bound, so referencing them raises
`NameError`).  The locals survive from one entry to the next. -/
structure ExtractState where
  listings : List (String × Listing)
  no_addresses : Nat
  rentVar : Option Rat
  areaVar : Option Rat
deriving DecidableEq

/-- One iteration of the entry loop of `extract_listings`
(scrape.py:155): find the ID (skip the entry if absent), handle the
address (absent address counts and yields empty-string fields; a
present address goes through `parse_address`, whose exception aborts the
whole page), fold the primary criteria, then build the dict value from
the `rent`/`area` locals (raising `NameError` if either is unbound). -/
def processEntry (s : ExtractState) (e : Entry) : Option ExtractState :=
  match findId e.links with
  | none => some s
  | some lid =>
    match (match e.addressText with
           | none => some (some "", some "", "", s.no_addresses + 1)
           | some t =>
             match parse_address t with
             | none => none
             | some (st, num, sub) => some (st, num, sub, s.no_addresses)) with
    | none => none
    | some (st, num, sub, na) =>
      match e.criteria.foldlM processCriterion (s.rentVar, s.areaVar) with
      | none => none
      | some (r?, a?) =>
        match r?, a? with
        | some r, some a =>
          some ⟨dictInsert lid ⟨st, num, sub, r, a⟩ s.listings, na, some r, some a⟩
        | _, _ => none

/-- `extract_listings` (scrape.py:147): fold the entry loop over the
page's entries and return `(listings, no_addresses)`; `none` models an
uncaught exception aborting the page. -/
def extract_listings (entries : List Entry) :
    Option (List (String × Listing) × Nat) :=
  (entries.foldlM processEntry ⟨[], 0, none, none⟩).map
    (fun s => (s.listings, s.no_addresses))

/-- One row of the `listings` table (scrape.py:62); `none` is SQL NULL.
The `date` column (defaulted by the database, never written or read by
the claims' code paths) is omitted. -/
structure DbRow where
  street : Option String
  number : Option String
  suburb : Option String
  rent : Option Rat
  area : Option Rat
  latitude : Option Rat
  longitude : Option Rat
deriving DecidableEq

/-- The tuple built for one listing by `store_listings` (scrape.py:90):
the six inserted columns, with latitude and longitude left NULL. -/
def listingToRow (y : Listing) : DbRow :=
  ⟨y.street, y.number, some y.suburb, some y.rent, some y.area, none, none⟩

/-- `cursor.executemany` of `INSERT OR IGNORE` (scrape.py:92): process
the tuples in order; a tuple whose id is already present changes
nothing and does not count into `cursor.rowcount`. -/
def storeGo : List (String × DbRow) → List (String × DbRow) → List (String × DbRow) × Nat
  | db, [] => (db, 0)
  | db, t :: ts =>
    match dictGet t.1 db with
    | some _ => storeGo db ts
    | none =>
      let r := storeGo (db ++ [t]) ts
      (r.1, r.2 + 1)

/-- `store_listings` (scrape.py:81): insert-or-ignore every listing and
return the new database together with `cursor.rowcount` (the number of
rows actually inserted). -/
def store_listings (db : List (String × DbRow)) (listings : List (String × Listing)) :
    List (String × DbRow) × Nat :=
  storeGo db (listings.map (fun p => (p.1, listingToRow p.2)))

/-- The SELECT of `add_coordinates` (scrape.py:382): rows with
`latitude IS NULL` and `suburb`, `street`, `number` all `NOT NULL`
(SQL NULL only — the empty string is NOT NULL), projected to
`(id, street, number, suburb)`. -/
def add_coordinates_select (db : List (String × DbRow)) :
    List (String × Option String × Option String × Option String) :=
  (db.filter (fun p =>
      p.2.latitude.isNone && p.2.suburb.isSome && p.2.street.isSome && p.2.number.isSome)).map
    (fun p => (p.1, p.2.street, p.2.number, p.2.suburb))

/-- The state of a function wrapped by `memoize_persistently`
(scrape.py:230): the in-memory `cache` dict, the mapping currently
pickled in the cache file, and an instrumentation counter of how often
the wrapped function has been invoked. -/
structure MemoState (α β : Type) where
  cache : List (α × β)
  disk : List (α × β)
  fcalls : Nat
deriving DecidableEq

/-- One call of the `wrapper` produced by `memoize_persistently`
(scrape.py:259): try the cache; on `KeyError` invoke the wrapped
function `f` (whose `none` models an uncaught exception), store the
result in the cache, pickle the whole cache to disk, and return. -/
def memoCall {α β : Type} [DecidableEq α] (f : α → Option β) (key : α)
    (s : MemoState α β) : Option β × MemoState α β :=
  match dictGet key s.cache with
  | some v => (some v, s)
  | none =>
    match f key with
    | none => (none, ⟨s.cache, s.disk, s.fcalls + 1⟩)
    | some v => (some v, ⟨dictInsert key v s.cache, dictInsert key v s.cache, s.fcalls + 1⟩)

/-- Process start (scrape.py:248): `pickle.load` the cache file into the
in-memory cache; the wrapped function has not been invoked yet. -/
def restartState {α β : Type} (disk : List (α × β)) : MemoState α β :=
  ⟨disk, disk, 0⟩

/-- One call of the `wrapper` produced by `rate_limited` (scrape.py:214)
on the exact logical clock: filter the timestamp list, possibly sleep,
then record the execution time.  Returns the execution time and the new
timestamp list. -/
def rlStep (callsLim seconds : Nat) (lc : List Nat) (now : Nat) : Nat × List Nat :=
  let ks := lc.filter (fun x => now - x ≤ seconds)
  if callsLim ≤ ks.length then
    let base := if callsLim = 1 then ks.getLastD 0 else ks.getD 1 0
    let t := now + (base + seconds - now)
    (t, ks ++ [t])
  else (now, ks ++ [now])

/-- `n` back-to-back requests against a `rate_limited(callsLim, seconds)`
wrapper: each request is issued the moment the previous one returns. -/
def rlRun (callsLim seconds : Nat) : Nat → Nat → List Nat → List Nat
  | 0, _, _ => []
  | n + 1, now, lc =>
    let r := rlStep callsLim seconds lc now
    r.1 :: rlRun callsLim seconds n r.1 r.2

/-- Execution times of the underlying function for `n` back-to-back
requests through `rate_limited(callsLim, seconds)`, starting at time 0
with an empty timestamp window. -/
def rate_limited_trace (callsLim seconds n : Nat) : List Nat :=
  rlRun callsLim seconds n 0 []

/-- The loop condition of `get_new_listings` (scrape.py:362):
`(not num_pages) or (page_index <= num_pages)` with Python falsiness
(`None` and `0` are falsy). -/
def gnlCond (np : Option Nat) (i : Nat) : Bool :=
  match np with
  | none => true
  | some n => n == 0 || decide (i ≤ n)

/-- The fetch loop of `get_new_listings` (scrape.py:357), abstracted
over `pageCount i` = `extract_number_of_pages(get_page(i))`.  Records,
per iteration, the fetched page index and the value of `num_pages`
right after it is (re-)assigned on that iteration.  `fuel` bounds the
iteration count (the Python loop can run forever when every page
reports count 0). -/
def gnlLoop (pageCount : Nat → Nat) : Nat → Nat → Option Nat → List (Nat × Nat)
  | 0, _, _ => []
  | fuel + 1, i, np =>
    if gnlCond np i then
      (i, pageCount i) :: gnlLoop pageCount fuel (i + 1) (some (pageCount i))
    else []

/-- The trace of `get_new_listings`: pages fetched (in order) with the
`num_pages` value derived on each of them, starting from
`page_index = 1`, `num_pages = None`. -/
def get_new_listings_trace (pageCount : Nat → Nat) (fuel : Nat) : List (Nat × Nat) :=
  gnlLoop pageCount fuel 1 none

/-- A no-address entry: ID present, address span missing, rent and area
criteria present. -/
def noAddressEntry : Entry :=
  ⟨["/expose/111"], none, ["500 €", "50 m²"]⟩

/-- First page block for the carry-over trace: full address, rent and
area criteria. -/
def leakEntry1 : Entry :=
  ⟨["/expose/1"], some "Hauptstr. 5, Mitte, KA", ["500 €", "50 m²"]⟩

/-- Second page block for the carry-over trace: two-field address and a
primary criterion matching neither the rent nor the area suffix. -/
def leakEntry2 : Entry :=
  ⟨["/expose/2"], some "Ost, KA", ["2 Zimmer"]⟩

/-! Helper lemmas about the association-list model of dictionaries and
the insert-or-ignore fold of `store_listings`. -/

theorem dictGet_append_of_some {α β : Type} [DecidableEq α] {k : α} {r : β}
    {db : List (α × β)} (l : List (α × β)) (h : dictGet k db = some r) :
    dictGet k (db ++ l) = some r := by
  induction db with
  | nil => simp [dictGet] at h
  | cons p rest ih =>
    obtain ⟨k', v⟩ := p
    by_cases hk : k = k'
    · simp [dictGet, hk] at h ⊢
      exact h
    · simp [dictGet, hk] at h ⊢
      exact ih h

theorem dictGet_append_self {α β : Type} [DecidableEq α] {k : α} (v : β)
    {db : List (α × β)} (h : dictGet k db = none) :
    dictGet k (db ++ [(k, v)]) = some v := by
  induction db with
  | nil => simp [dictGet]
  | cons p rest ih =>
    obtain ⟨k', v'⟩ := p
    by_cases hk : k = k'
    · simp [dictGet, hk] at h
    · simp [dictGet, hk] at h ⊢
      exact ih h

theorem storeGo_preserve {k : String} {r : DbRow}
    (ts : List (String × DbRow)) {db : List (String × DbRow)}
    (h : dictGet k db = some r) :
    dictGet k (storeGo db ts).1 = some r := by
  induction ts generalizing db with
  | nil => simpa [storeGo] using h
  | cons t rest ih =>
    by_cases ht : ∃ w, dictGet t.1 db = some w
    · obtain ⟨w, hw⟩ := ht
      simpa [storeGo, hw] using ih h
    · have hnone : dictGet t.1 db = none := by
        cases hx : dictGet t.1 db with
        | none => rfl
        | some w => exact absurd ⟨w, hx⟩ ht
      have : dictGet k (db ++ [t]) = some r := dictGet_append_of_some [t] h
      simpa [storeGo, hnone] using ih this

theorem storeGo_key_present {k : String} {v : DbRow}
    {ts : List (String × DbRow)} {db : List (String × DbRow)}
    (h : (k, v) ∈ ts) :
    (dictGet k (storeGo db ts).1).isSome = true := by
  induction ts generalizing db with
  | nil => simp at h
  | cons t rest ih =>
    rcases List.mem_cons.mp h with heq | htail
    · subst heq
      cases hx : dictGet k db with
      | some w =>
        have := storeGo_preserve rest hx
        simp [storeGo, hx, this]
      | none =>
        have hself : dictGet k (db ++ [(k, v)]) = some v := dictGet_append_self v hx
        have := storeGo_preserve rest hself
        simp [storeGo, hx, this]
    · cases hx : dictGet t.1 db with
      | some w => simpa [storeGo, hx] using ih htail
      | none => simpa [storeGo, hx] using ih htail

theorem storeGo_all_present {ts : List (String × DbRow)} {db : List (String × DbRow)}
    (h : ∀ p ∈ ts, (dictGet p.1 db).isSome = true) :
    storeGo db ts = (db, 0) := by
  induction ts with
  | nil => simp [storeGo]
  | cons t rest ih =>
    have ht := h t (List.mem_cons_self t rest)
    cases hx : dictGet t.1 db with
    | none => simp [hx] at ht
    | some w =>
      simp only [storeGo, hx]
      exact ih (fun p hp => h p (List.mem_cons_of_mem t hp))

/-- Claim C3: listing-store insertion is idempotent by identifier.
Storing the same listing set a second time leaves the table unchanged
and returns an inserted-count of 0, and a row already stored under an
identifier is never changed by any later `store_listings` call
(first-write-wins: rent and area are never updated once stored). -/
theorem store_listings_idempotent (db : List (String × DbRow)) (L : List (String × Listing)) :
    store_listings (store_listings db L).1 L = ((store_listings db L).1, 0) ∧
    (∀ k r, dictGet k db = some r → dictGet k (store_listings db L).1 = some r) := by
  constructor
  · apply storeGo_all_present
    intro p hp
    have hp' : (p.1, p.2) ∈ L.map (fun q => (q.1, listingToRow q.2)) := by simpa using hp
    exact storeGo_key_present hp' 
  · intro k r h
    exact storeGo_preserve _ h

/-- Witness for C3 at a concrete database and listing set. -/
theorem store_listings_idempotent_app :
    store_listings
        (store_listings [("a", ⟨some "X", some "9", some "Y", some 7, some 8, none, none⟩)]
          [("a", ⟨some "S", some "1", "Sub", 10, 20⟩), ("b", ⟨none, none, "T", 30, 40⟩)]).1
        [("a", ⟨some "S", some "1", "Sub", 10, 20⟩), ("b", ⟨none, none, "T", 30, 40⟩)] =
      ((store_listings [("a", ⟨some "X", some "9", some "Y", some 7, some 8, none, none⟩)]
          [("a", ⟨some "S", some "1", "Sub", 10, 20⟩), ("b", ⟨none, none, "T", 30, 40⟩)]).1, 0) ∧
    dictGet "a"
        (store_listings [("a", ⟨some "X", some "9", some "Y", some 7, some 8, none, none⟩)]
          [("a", ⟨some "S", some "1", "Sub", 10, 20⟩), ("b", ⟨none, none, "T", 30, 40⟩)]).1 =
      some ⟨some "X", some "9", some "Y", some 7, some 8, none, none⟩ :=
  ⟨(store_listings_idempotent _ _).1,
   (store_listings_idempotent _ _).2 "a" _ (by decide)⟩

/-- Claim C2: for every argument already in the persistent memoizer's
cache — including entries loaded from the cache file at process start —
the memoized call returns the cached value and does not invoke the
wrapped function (the whole state, including the invocation counter and
the disk file, is untouched, so no rate-limit budget is consumed); on a
cache miss the result is stored and the entire mapping is written to
disk before the value is returned. -/
theorem memoize_persistently_cache (α β : Type) [DecidableEq α]
    (f : α → Option β) (s : MemoState α β) (key : α) :
    (∀ v, dictGet key s.cache = some v → memoCall f key s = (some v, s)) ∧
    (∀ d v, dictGet key d = some v →
      memoCall f key (restartState d) = (some v, restartState d)) ∧
    (∀ v, dictGet key s.cache = none → f key = some v →
      memoCall f key s =
        (some v, ⟨dictInsert key v s.cache, dictInsert key v s.cache, s.fcalls + 1⟩)) := by
  refine ⟨fun v hv => ?_, fun d v hv => ?_, fun v hmiss hf => ?_⟩
  · simp [memoCall, hv]
  · simp [memoCall, restartState, hv]
  · simp [memoCall, hmiss, hf]

/-- Witness for C2: a cache hit on a state freshly loaded from disk, and
a miss that is persisted. -/
theorem memoize_persistently_cache_app :
    memoCall (fun _ : String => some (7 : Nat)) "a" (restartState [("a", 3)]) =
      (some 3, restartState [("a", 3)]) ∧
    memoCall (fun _ : String => some (7 : Nat)) "b" (restartState [("a", 3)]) =
      (some 7, ⟨[("a", 3), ("b", 7)], [("a", 3), ("b", 7)], 1⟩) :=
  ⟨(memoize_persistently_cache String Nat _ (restartState [("a", 3)]) "a").2.1 _ 3 rfl,
   (memoize_persistently_cache String Nat _ (restartState [("a", 3)]) "b").2.2 7 rfl rfl⟩

/-- Claim C4: when the function wrapped by the persistent memoizer
raises on a cache miss, the exception propagates (result `none`), the
wrapped function was invoked, and neither the in-memory cache nor the
on-disk mapping is modified, so a future run will retry the lookup. -/
theorem memoize_persistently_error (α β : Type) [DecidableEq α]
    (f : α → Option β) (s : MemoState α β) (key : α)
    (hmiss : dictGet key s.cache = none) (herr : f key = none) :
    (memoCall f key s).1 = none ∧
    (memoCall f key s).2.cache = s.cache ∧
    (memoCall f key s).2.disk = s.disk := by
  simp [memoCall, hmiss, herr]

/-- Witness for C4 at a concrete state and failing function. -/
theorem memoize_persistently_error_app :
    (memoCall (fun _ : String => (none : Option Nat)) "b" (restartState [("a", 3)])).1 = none ∧
    (memoCall (fun _ : String => (none : Option Nat)) "b" (restartState [("a", 3)])).2.cache =
      [("a", 3)] ∧
    (memoCall (fun _ : String => (none : Option Nat)) "b" (restartState [("a", 3)])).2.disk =
      [("a", 3)] :=
  memoize_persistently_error String Nat _ (restartState [("a", 3)]) "b" rfl rfl

/-- Claim C1 (refuted on the exact-clock model): with
`rate_limited(calls=2, seconds=1)` and five back-to-back requests, the
third, fourth and fifth underlying calls all execute at time 1 — three
calls inside the trailing 1-second window ending at time 1, although the
decorator's own docstring promises at most 2.  The cause: the window
filter keeps timestamps exactly `seconds` old (`now - x <= seconds`)
while the sleep target is computed from `last_calls[1]`, which already
lies at the window border, so the computed delay is 0. -/
theorem rate_limited_window_violation :
    rate_limited_trace 2 1 5 = [0, 0, 1, 1, 1] ∧
    2 < ((rate_limited_trace 2 1 5).filter (fun t => decide (0 < t) && decide (t ≤ 1))).length := by
  decide

/-- Claim C9 (refuted): on a page whose first block parses rent 500 and
area 50 and whose second block matches neither the rent-currency nor the
area-unit suffix, the second listing is emitted with rent 500 and
area 50 — the `rent`/`area` locals carry the previous block's values
over (scrape.py:176-189), instead of that listing's fields being left
undefined. -/
theorem extract_listings_carry_over :
    extract_listings [leakEntry1, leakEntry2] =
      some ([("1", ⟨some "Hauptstraße", some "5", "Mitte", 500, 50⟩),
             ("2", ⟨none, none, "Ost", 500, 50⟩)], 0) := by
  decide

/-- Counterexample for claim C5: a no-address listing (street, number
and suburb all stored as the empty string) has non-NULL fields, so the
backfill SELECT does return it — the claim says it is never selected.
The row is produced by the code's own pipeline: extracting a block with
a missing address span and storing it. -/
theorem add_coordinates_select_empty_cex :
    extract_listings [noAddressEntry] =
      some ([("111", ⟨some "", some "", "", 500, 50⟩)], 1) ∧
    add_coordinates_select
        (store_listings [] [("111", ⟨some "", some "", "", 500, 50⟩)]).1 =
      [("111", some "", some "", some "")] := by
  decide

/-- Claim C5 as amended: the backfill selection returns exactly the rows
whose latitude is NULL and whose street, number and suburb are all
non-NULL — string emptiness is not checked, so empty-string no-address
rows are selected too. -/
theorem add_coordinates_select_exactly (db : List (String × DbRow))
    (q : String × Option String × Option String × Option String) :
    q ∈ add_coordinates_select db ↔
      ∃ k row, (k, row) ∈ db ∧ row.latitude = none ∧
        row.street.isSome = true ∧ row.number.isSome = true ∧ row.suburb.isSome = true ∧
        q = (k, row.street, row.number, row.suburb) := by
  simp only [add_coordinates_select, List.mem_map, List.mem_filter]
  constructor
  · rintro ⟨⟨k, row⟩, ⟨hmem, hcond⟩, rfl⟩
    simp only [Bool.and_eq_true, Option.isNone_iff_eq_none] at hcond
    exact ⟨k, row, hmem, hcond.1.1.1, hcond.1.2, hcond.2, hcond.1.1.2, rfl⟩
  · rintro ⟨k, row, hmem, hlat, hst, hnum, hsub, rfl⟩
    exact ⟨(k, row), ⟨hmem, by simp [hlat, hst, hnum, hsub]⟩, rfl⟩

/-- Witness for the amended C5 at a concrete one-row database. -/
theorem add_coordinates_select_exactly_app :
    ("111", (some "", some "", some "")) ∈
      add_coordinates_select
        [("111", ⟨some "", some "", some "", some 500, some 50, none, none⟩)] :=
  (add_coordinates_select_exactly _ _).mpr
    ⟨"111", ⟨some "", some "", some "", some 500, some 50, none, none⟩,
     by decide, rfl, rfl, rfl, rfl, rfl⟩

/-- Counterexample for claim C6: when page 1 reports 3 pages but page 2
reports 1 page, the loop's `num_pages` is re-assigned on page 2 (the
trace records count 1 there, not page 1's count 3) and the loop stops
after page 2 instead of continuing to page 3. -/
theorem get_new_listings_rederives_cex :
    get_new_listings_trace (fun n => if n = 1 then 3 else 1) 10 = [(1, 3), (2, 1)] ∧
    ¬ (∀ p ∈ get_new_listings_trace (fun n => if n = 1 then 3 else 1) 10, p.2 = 3) ∧
    (get_new_listings_trace (fun n => if n = 1 then 3 else 1) 10).map Prod.fst = [1, 2] := by
  decide

theorem gnlLoop_snd (pc : Nat → Nat) :
    ∀ fuel i np p, p ∈ gnlLoop pc fuel i np → p.2 = pc p.1 := by
  intro fuel
  induction fuel with
  | zero => intro i np p hp; simp [gnlLoop] at hp
  | succ f ih =>
    intro i np p hp
    by_cases hc : gnlCond np i
    · rw [gnlLoop, if_pos hc] at hp
      rcases List.mem_cons.mp hp with rfl | htail
      · rfl
      · exact ih _ _ _ htail
    · rw [gnlLoop, if_neg hc] at hp
      simp at hp

theorem gnlLoop_const (n : Nat) (hn : 0 < n) :
    ∀ fuel i, 1 ≤ i → i ≤ n + 1 → n + 1 - i < fuel →
      (gnlLoop (fun _ => n) fuel i (some n)).map Prod.fst = List.range' i (n + 1 - i) := by
  intro fuel
  induction fuel with
  | zero => intro i h1 h2 h3; omega
  | succ f ih =>
    intro i h1 h2 h3
    by_cases hi : i ≤ n
    · have hc : gnlCond (some n) i = true := by
        simp [gnlCond, hi]
      rw [gnlLoop, if_pos hc]
      have hsp : n + 1 - i = (n - i) + 1 := by omega
      rw [hsp, List.range'_succ]
      simp only [List.map_cons]
      congr 1
      have := ih (i + 1) (by omega) (by omega) (by omega)
      rw [this]
      congr 1
      omega
    · have hi2 : i = n + 1 := by omega
      have hc : gnlCond (some n) i = false := by
        simp only [gnlCond, Bool.or_eq_false_iff]
        constructor
        · simp; omega
        · simp; omega
      rw [gnlLoop, if_neg (by simp [hc])]
      rw [hi2]
      simp

/-- Claim C6 as amended: the fetch loop re-derives the page count from
EVERY fetched page (each trace element carries the count extracted from
its own page, which becomes the new `num_pages`), and the loop continues
while the index does not exceed the most recently derived count; in
particular, when every page reports the same count `n > 0`, exactly
pages `1..n` are fetched. -/
theorem get_new_listings_page_count (pageCount : Nat → Nat) (fuel : Nat) :
    (∀ p ∈ get_new_listings_trace pageCount fuel, p.2 = pageCount p.1) ∧
    (∀ n, 0 < n → n < fuel →
      (get_new_listings_trace (fun _ => n) fuel).map Prod.fst = List.range' 1 n) := by
  constructor
  · intro p hp
    exact gnlLoop_snd pageCount fuel 1 none p hp
  · intro n hn hf
    obtain ⟨f, rfl⟩ : ∃ f, fuel = f + 1 := ⟨fuel - 1, by omega⟩
    unfold get_new_listings_trace
    rw [gnlLoop, if_pos (by simp [gnlCond])]
    simp only [List.map_cons]
    rw [gnlLoop_const n hn f 2 (by omega) (by omega) (by omega)]
    have hsp : n = (n - 1) + 1 := by omega
    rw [show List.range' 1 n = 1 :: List.range' 2 (n - 1) from by
      conv_lhs => rw [hsp]
      rw [List.range'_succ]]
    congr 1

/-- Witness for the amended C6: a constant page count of 2 fetches pages
1 and 2, and the trace element for page 2 carries page 2's own count. -/
theorem get_new_listings_page_count_app :
    (get_new_listings_trace (fun _ => 2) 5).map Prod.fst = List.range' 1 2 ∧
    ((2, 2) : Nat × Nat).2 = 2 :=
  ⟨(get_new_listings_page_count (fun _ => 2) 5).2 2 (by decide) (by decide),
   (get_new_listings_page_count (fun _ => 2) 5).1 (2, 2) (by decide)⟩

/-- Claim C8: a listing block whose address element is absent does not
abort extraction: the block is still extracted under its ID with street,
number and suburb recorded as empty strings (not as absent/NULL), and
the no-address counter is incremented.  The closed conjunct shows a full
page containing such a block extracting successfully with a no-address
count of 1. -/
theorem extract_listings_no_address (s : ExtractState) (e : Entry) (lid : String) (r a : Rat)
    (hid : findId e.links = some lid)
    (haddr : e.addressText = none)
    (hcrit : e.criteria.foldlM processCriterion (s.rentVar, s.areaVar) = some (some r, some a)) :
    processEntry s e =
      some ⟨dictInsert lid ⟨some "", some "", "", r, a⟩ s.listings, s.no_addresses + 1,
            some r, some a⟩ ∧
    extract_listings [⟨["/expose/7"], some "Hauptstr. 2, Mitte, KA", ["700 €", "70 m²"]⟩,
                      ⟨["/expose/8"], none, ["500 €", "50 m²"]⟩] =
      some ([("7", ⟨some "Hauptstraße", some "2", "Mitte", 700, 70⟩),
             ("8", ⟨some "", some "", "", 500, 50⟩)], 1) := by
  constructor
  · simp [processEntry, hid, haddr, hcrit]
  · decide

/-- Witness for C8 at a concrete no-address entry and empty start state. -/
theorem extract_listings_no_address_app :
    processEntry ⟨[], 0, none, none⟩ noAddressEntry =
      some ⟨[("111", ⟨some "", some "", "", 500, 50⟩)], 1, some 500, some 50⟩ :=
  (extract_listings_no_address ⟨[], 0, none, none⟩ noAddressEntry "111" 500 50
    (by decide) rfl (by decide)).1


/-! Helper lemmas for `rsplit1`, the street regex, and `parse_address`. -/

theorem takeWhile_no_space {l1 l2 : List Char} (h : ∀ c ∈ l1, c ≠ ' ') :
    (l1 ++ ' ' :: l2).takeWhile (fun c => c ≠ ' ') = l1 := by
  induction l1 with
  | nil =>
    rw [List.nil_append, List.takeWhile_cons, if_neg (by decide)]
  | cons c cs ih =>
    rw [List.cons_append, List.takeWhile_cons,
      if_pos (decide_eq_true (h c (List.mem_cons_self c cs))),
      ih (fun d hd => h d (List.mem_cons_of_mem c hd))]

theorem dropWhile_no_space {l1 l2 : List Char} (h : ∀ c ∈ l1, c ≠ ' ') :
    (l1 ++ ' ' :: l2).dropWhile (fun c => c ≠ ' ') = ' ' :: l2 := by
  induction l1 with
  | nil =>
    rw [List.nil_append, List.dropWhile_cons, if_neg (by decide)]
  | cons c cs ih =>
    rw [List.cons_append, List.dropWhile_cons,
      if_pos (decide_eq_true (h c (List.mem_cons_self c cs))),
      ih (fun d hd => h d (List.mem_cons_of_mem c hd))]

theorem startsWithList_shape {l p : List Char} (h : startsWithList l p = true) :
    l = p ++ l.drop p.length := by
  induction p generalizing l with
  | nil => simp
  | cons x ps ih =>
    cases l with
    | nil => simp [startsWithList] at h
    | cons c cs =>
      simp only [startsWithList, Bool.and_eq_true, decide_eq_true_eq] at h
      obtain ⟨h1, h2⟩ := h
      subst h1
      simpa using congrArg (c :: ·) (ih h2)

theorem trasseSub_eq_some {l r : List Char} (h : trasseSub l = some r) :
    ∃ c rest, (c = 'S' ∨ c = 's') ∧
      l = 'e' :: 's' :: 's' :: 'a' :: 'r' :: 't' :: c :: rest ∧
      r = 'e' :: 'ß' :: 'a' :: 'r' :: 't' :: c :: rest := by
  unfold trasseSub at h
  split at h
  · next hs =>
    cases hd : l.drop 6 with
    | nil => rw [hd] at h; exact absurd h (by simp)
    | cons c rest =>
      rw [hd] at h
      have h' : (if c = 'S' ∨ c = 's' then
          some ('e' :: 'ß' :: 'a' :: 'r' :: 't' :: c :: rest) else none) = some r := h
      split at h'
      · next hc =>
        refine ⟨c, rest, hc, ?_, (Option.some.inj h').symm⟩
        have hshape : l = ['e', 's', 's', 'a', 'r', 't'] ++ l.drop 6 :=
          startsWithList_shape hs
        rw [hd] at hshape
        simpa using hshape
      · exact absurd h' (by simp)
  · exact absurd h (by simp)

theorem trDotSub_eq_some {l r : List Char} (h : trDotSub l = some r) :
    ∃ x c rest, (c = 'S' ∨ c = 's') ∧ x ≠ '\n' ∧ l = x :: 'r' :: 't' :: c :: rest ∧
      r = 'e' :: 'ß' :: 'a' :: 'r' :: 't' :: c :: rest := by
  cases l with
  | nil => exact absurd h (by simp [trDotSub])
  | cons x l1 =>
    have h1 : (if x ≠ '\n' then
        (if startsWithList l1 ['r', 't'] = true then
          (match l1.drop 2 with
           | c :: rest =>
             if c = 'S' ∨ c = 's' then some ('e' :: 'ß' :: 'a' :: 'r' :: 't' :: c :: rest) else none
           | [] => none)
        else none)
      else none) = some r := h
    split at h1
    · next hx =>
      split at h1
      · next hs =>
        cases hd : l1.drop 2 with
        | nil => rw [hd] at h1; exact absurd h1 (by simp)
        | cons c rest =>
          rw [hd] at h1
          have h2 : (if c = 'S' ∨ c = 's' then
              some ('e' :: 'ß' :: 'a' :: 'r' :: 't' :: c :: rest) else none) = some r := h1
          split at h2
          · next hc =>
            refine ⟨x, c, rest, hc, hx, ?_, (Option.some.inj h2).symm⟩
            have hshape : l1 = ['r', 't'] ++ l1.drop 2 := startsWithList_shape hs
            rw [hd] at hshape
            rw [hshape]
            simp
          · exact absurd h2 (by simp)
      · exact absurd h1 (by simp)
    · exact absurd h1 (by simp)

theorem rsplit1_append {st num : String} (h : ∀ c ∈ num.data, c ≠ ' ') :
    rsplit1 (st ++ " " ++ num) = some (st, num) := by
  have hdata : (st ++ " " ++ num).data = st.data ++ ' ' :: num.data := by
    show (st.data ++ [' ']) ++ num.data = st.data ++ ' ' :: num.data
    simp
  have hrev : (st.data ++ ' ' :: num.data).reverse = num.data.reverse ++ ' ' :: st.data.reverse := by
    simp
  have h' : ∀ c ∈ num.data.reverse, c ≠ ' ' := fun c hc => h c (List.mem_reverse.mp hc)
  simp only [rsplit1, hdata, hrev]
  rw [if_pos (by simp), takeWhile_no_space h', dropWhile_no_space h']
  simp

/-- Counterexample for claim C7: the street "Astra" does not end in a
"strasse"/"str." abbreviation (in either case), yet `parse_address`
rewrites it to "Astraße", because the unescaped `.` in the pattern
`([Ss])(trasse|tr.)\Z` matches the final "a" of "As-tr-a". -/
theorem parse_address_wildcard_cex :
    parse_address "Astra 5, Mitte, KA" = some (some "Astraße", some "5", "Mitte") ∧
    pyEndsWith "Astra" "strasse" = false ∧ pyEndsWith "Astra" "Strasse" = false ∧
    pyEndsWith "Astra" "str." = false ∧ pyEndsWith "Astra" "Str." = false ∧
    ("Astraße" : String) ≠ "Astra" := by
  decide

/-- Claim C7 as amended: with exactly two comma-separated fields,
`parse_address` returns the whole first field as suburb with street and
number unset; with three or more fields it splits the first field into
street and number on the last space and takes the second field as
suburb.  The trailing-abbreviation rewrite is case-preserving in the
`[Ss]`, but the `.` of the `tr.` alternative is a regex wildcard
(matching any single character except `'\n'`): a street ending in
`[Ss]` + "trasse", or in `[Ss]` + "tr" + any single non-newline
character, is rewritten to end in `[Ss]` + "traße"; a street ending in
neither pattern is left unchanged. -/
theorem parse_address_spec :
    (∀ a x y, (pySplit a ", ").map pyStrip = [x, y] →
      parse_address a = some (none, none, x)) ∧
    (∀ a f0 f1 f2 fs st num, (pySplit a ", ").map pyStrip = f0 :: f1 :: f2 :: fs →
      rsplit1 f0 = some (st, num) →
      parse_address a = some (some (normalize_street st), some num, f1)) ∧
    (∀ st num, (∀ c ∈ num.data, c ≠ ' ') → rsplit1 (st ++ " " ++ num) = some (st, num)) ∧
    (∀ p c, (c = 'S' ∨ c = 's') →
      normalize_street (p ++ String.singleton c ++ "trasse") =
        p ++ String.singleton c ++ "traße") ∧
    (∀ p c x, (c = 'S' ∨ c = 's') → x ≠ '\n' →
      normalize_street (p ++ String.singleton c ++ "tr" ++ String.singleton x) =
        p ++ String.singleton c ++ "traße") ∧
    (∀ s : String,
      (¬ ∃ p c, (c = 'S' ∨ c = 's') ∧ s = p ++ String.singleton c ++ "trasse") →
      (¬ ∃ p c x, (c = 'S' ∨ c = 's') ∧ x ≠ '\n' ∧
        s = p ++ String.singleton c ++ "tr" ++ String.singleton x) →
      normalize_street s = s) := by
  refine ⟨?_, ?_, fun st num h => rsplit1_append h, ?_, ?_, ?_⟩
  · intro a x y h
    unfold parse_address
    rw [h]
    rfl
  · intro a f0 f1 f2 fs st num h hr
    unfold parse_address
    rw [h]
    show (match rsplit1 f0 with
          | none => none
          | some (st, num) => some (some (normalize_street st), some num, f1)) = _
    rw [hr]
  · intro p c hc
    have hrev : (p ++ String.singleton c ++ "trasse").data.reverse =
        'e' :: 's' :: 's' :: 'a' :: 'r' :: 't' :: c :: p.data.reverse := by
      show ((p.data ++ [c]) ++ ['t', 'r', 'a', 's', 's', 'e']).reverse = _
      simp
    unfold normalize_street
    rw [hrev]
    rw [show trasseSub ('e' :: 's' :: 's' :: 'a' :: 'r' :: 't' :: c :: p.data.reverse) =
        (if c = 'S' ∨ c = 's' then
          some ('e' :: 'ß' :: 'a' :: 'r' :: 't' :: c :: p.data.reverse) else none) from rfl]
    rw [if_pos hc]
    apply String.ext
    show ('e' :: 'ß' :: 'a' :: 'r' :: 't' :: c :: p.data.reverse).reverse =
      (p.data ++ [c]) ++ ['t', 'r', 'a', 'ß', 'e']
    simp
  · intro p c x hc hx
    have hrev : (p ++ String.singleton c ++ "tr" ++ String.singleton x).data.reverse =
        x :: 'r' :: 't' :: c :: p.data.reverse := by
      show (((p.data ++ [c]) ++ ['t', 'r']) ++ [x]).reverse = _
      simp
    unfold normalize_street
    rw [hrev]
    have htrasse : trasseSub (x :: 'r' :: 't' :: c :: p.data.reverse) = none := by
      have : startsWithList ('r' :: 't' :: c :: p.data.reverse) ['s', 's', 'a', 'r', 't'] =
          false := rfl
      simp [trasseSub, startsWithList, this]
    rw [htrasse]
    rw [show trDotSub (x :: 'r' :: 't' :: c :: p.data.reverse) =
        (if x ≠ '\n' then
          (if c = 'S' ∨ c = 's' then
            some ('e' :: 'ß' :: 'a' :: 'r' :: 't' :: c :: p.data.reverse) else none)
        else none) from rfl]
    rw [if_pos hx, if_pos hc]
    apply String.ext
    show ('e' :: 'ß' :: 'a' :: 'r' :: 't' :: c :: p.data.reverse).reverse =
      (p.data ++ [c]) ++ ['t', 'r', 'a', 'ß', 'e']
    simp
  · intro s h1 h2
    unfold normalize_street
    cases ha : trasseSub s.data.reverse with
    | some r =>
      obtain ⟨c, rest, hc, hshape, -⟩ := trasseSub_eq_some ha
      exfalso
      apply h1
      refine ⟨⟨rest.reverse⟩, c, hc, String.ext ?_⟩
      show s.data = rest.reverse ++ [c] ++ ['t', 'r', 'a', 's', 's', 'e']
      have := congrArg List.reverse hshape
      rw [List.reverse_reverse] at this
      rw [this]
      simp
    | none =>
      cases hb : trDotSub s.data.reverse with
      | some r =>
        obtain ⟨x, c, rest, hc, hx, hshape, -⟩ := trDotSub_eq_some hb
        exfalso
        apply h2
        refine ⟨⟨rest.reverse⟩, c, x, hc, hx, String.ext ?_⟩
        show s.data = ((rest.reverse ++ [c]) ++ ['t', 'r']) ++ [x]
        have := congrArg List.reverse hshape
        rw [List.reverse_reverse] at this
        rw [this]
        simp
      | none => rfl

/-- Witness for the amended C7 at concrete addresses and streets. -/
theorem parse_address_spec_app :
    parse_address "Innenstadt-Ost, Karlsruhe" = some (none, none, "Innenstadt-Ost") ∧
    rsplit1 ("Haupt" ++ " " ++ "5") = some ("Haupt", "5") ∧
    normalize_street ("Haupt" ++ String.singleton 's' ++ "trasse") =
      "Haupt" ++ String.singleton 's' ++ "traße" ∧
    normalize_street ("Haupt" ++ String.singleton 's' ++ "tr" ++ String.singleton 'y') =
      "Haupt" ++ String.singleton 's' ++ "traße" ∧
    normalize_street "Weg" = "Weg" :=
  ⟨parse_address_spec.1 _ "Innenstadt-Ost" "Karlsruhe" (by decide),
   parse_address_spec.2.2.1 "Haupt" "5" (by decide),
   parse_address_spec.2.2.2.1 "Haupt" 's' (Or.inr rfl),
   parse_address_spec.2.2.2.2.1 "Haupt" 's' 'y' (Or.inr rfl) (by decide),
   parse_address_spec.2.2.2.2.2 "Weg"
     (by
       rintro ⟨p, c, -, h⟩
       have h2 : (['W', 'e', 'g'] : List Char) = (p.data ++ [c]) ++ ['t', 'r', 'a', 's', 's', 'e'] :=
         congrArg String.data h
       have h3 : (3 : Nat) = p.data.length + 7 := by simpa using congrArg List.length h2
       omega)
     (by
       rintro ⟨p, c, x, -, -, h⟩
       have h2 : (['W', 'e', 'g'] : List Char) = ((p.data ++ [c]) ++ ['t', 'r']) ++ [x] :=
         congrArg String.data h
       have h3 : (3 : Nat) = p.data.length + 4 := by simpa using congrArg List.length h2
       omega)⟩

/-- Claim C10: an address string with no `", "` separator (a single
field) makes `parse_address` raise rather than return a parsed address:
the two-field branch is not taken, and the general branch reads
`fields[1]`, which does not exist (for a spaceless single field the
`rsplit` unpack already raises). -/
theorem parse_address_single_field (a : String)
    (h : (pySplit a ", ").length = 1) :
    parse_address a = none := by
  obtain ⟨x, hx⟩ : ∃ x, pySplit a ", " = [x] := by
    cases l : pySplit a ", " with
    | nil => rw [l] at h; simp at h
    | cons y ys =>
      cases ys with
      | nil => exact ⟨y, rfl⟩
      | cons z zs => rw [l] at h; simp at h
  unfold parse_address
  rw [hx]
  rfl

/-- Witness for C10: "Hauptstraße 12" is a single comma-free field and
`parse_address` fails on it. -/
theorem parse_address_single_field_app :
    (pySplit "Hauptstraße 12" ", ").length = 1 ∧ parse_address "Hauptstraße 12" = none :=
  ⟨by decide, parse_address_single_field _ (by decide)⟩
